import Mathlib

/-!
Verification of the deal reconciliation engine (marketing-automation).

This file shallowly embeds the engine's core — the `generateDeals` classifier
pipeline of `src/lib/model/database.ts`, together with the refund rule of the
`ActionGenerator` — and proves the spec's testable properties about it.

Modelling conventions:
* ISO date strings compare lexicographically exactly as chronologically, so
  dates (`saleDate`, `maintenanceStartDate`, `closedate`) are embedded as
  integer timestamps in milliseconds (`Date := Int`), and the JS string sorts
  over dates become integer-key sorts.
* Monetary amounts (`vendorAmount`) are embedded as integers; on integers,
  JS `n.toString()` is plain decimal notation and `n.toFixed(2)` is the
  decimal notation followed by ".00".
* JS `Array.prototype.sort` (ES2019+) is stable; it is embedded as a stable
  insertion sort.
* JS `Set` insertion order and `lodash.uniq` keep the first occurrence; both
  are embedded as first-occurrence deduplication.
* Fallible code (the engine's `assert.ok` calls, which abort the run) is
  embedded in `Option`: `none` is a fatal assertion failure.
-/

namespace MA

/-- Dates as integer millisecond timestamps (ISO strings order lexicographically
as chronologically, so the embedding orders them as integers). -/
abbrev Date := Int

/-- Monetary amounts, embedded as integers (see header comment). -/
abbrev Money := Int

/-- JS `Number.prototype.toString` on an integer value. -/
def intToString (n : Int) : String :=
  if n < 0 then "-" ++ Nat.repr n.natAbs else Nat.repr n.natAbs

/-- JS `Number.prototype.toFixed(2)` on an integer value. -/
def toFixed2 (n : Int) : String := intToString n ++ ".00"

/-- Deal stages used by the engine (glossary: stage values used here are
EVAL, CLOSED_WON, CLOSED_LOST). -/
inductive DealStage
| EVAL
| CLOSED_WON
| CLOSED_LOST
deriving DecidableEq, Repr

/-- License types; every type other than EVALUATION and OPEN_SOURCE behaves
like COMMERCIAL in the engine (`isFreeLicense` checks only those two). -/
inductive LicenseType
| EVALUATION
| OPEN_SOURCE
| COMMERCIAL
deriving DecidableEq, Repr

/-- License status (`status` ∈ \x7bactive, inactive\x7d). -/
inductive LicenseStatus
| active
| inactive
deriving DecidableEq, Repr

/-- Transaction sale types. -/
inductive SaleType
| New
| Renewal
| Upgrade
| Refund
deriving DecidableEq, Repr

/-- A named contact on a license (only the email is consulted by the engine). -/
structure ContactInfo where
  email : String
deriving DecidableEq, Repr

/-- `license.contactDetails`. -/
structure ContactDetails where
  technicalContact : ContactInfo
  billingContact : Option ContactInfo
  country : String
deriving DecidableEq, Repr

/-- `license.partnerDetails`. -/
structure PartnerDetails where
  billingContact : ContactInfo
deriving DecidableEq, Repr

/-- A marketplace license record (the fields the engine reads). The `tier`
field is the parsed licensed-user tier consumed by the (spec-modelled) Tier
Calculator. -/
structure License where
  addonLicenseId : String
  licenseId : Option String
  licenseType : LicenseType
  status : LicenseStatus
  maintenanceStartDate : Date
  hosting : String
  addonKey : String
  contactDetails : ContactDetails
  partnerDetails : Option PartnerDetails
  tier : Nat
deriving DecidableEq, Repr

/-- `transaction.purchaseDetails`. -/
structure PurchaseDetails where
  saleDate : Date
  saleType : SaleType
  vendorAmount : Money
deriving DecidableEq, Repr

/-- A marketplace transaction record (the fields the engine reads). -/
structure Transaction where
  addonLicenseId : String
  transactionId : String
  purchaseDetails : PurchaseDetails
deriving DecidableEq, Repr

/-- One `{license, transactions[]}` member of a related-record group. -/
structure LicenseContext where
  license : License
  transactions : List Transaction
deriving DecidableEq, Repr

/-- `RelatedLicenseSet`: a related-record group. -/
abbrev RelatedLicenseSet := List LicenseContext

/-- The full property bag of a CRM deal, as read and written by the engine. -/
structure DealProperties where
  addonlicenseid : String
  transactionid : String
  closedate : Date
  deployment : String
  aa_app : String
  license_tier : String
  country : String
  origin : String
  related_products : String
  dealname : String
  pipeline : String
  amount : String
  dealstage : DealStage
deriving DecidableEq, Repr

/-- An existing CRM deal: stable id, associated contact ids, property bag. -/
structure Deal where
  id : String
  contactIds : List String
  properties : DealProperties
deriving DecidableEq, Repr

/-- A property bag in which each property may be absent (the shape of JS
`Partial<Deal['properties']>`). -/
structure OptDealProperties where
  addonlicenseid : Option String
  transactionid : Option String
  closedate : Option Date
  deployment : Option String
  aa_app : Option String
  license_tier : Option String
  country : Option String
  origin : Option String
  related_products : Option String
  dealname : Option String
  pipeline : Option String
  amount : Option String
  dealstage : Option DealStage
deriving DecidableEq, Repr

/-- The all-absent property bag (JS `{}`). -/
def emptyOptProperties : OptDealProperties :=
  { addonlicenseid := none, transactionid := none, closedate := none,
    deployment := none, aa_app := none, license_tier := none, country := none,
    origin := none, related_products := none, dealname := none,
    pipeline := none, amount := none, dealstage := none }

/-! ### List helpers (JS `sort`, `lodash.uniq`, JS `Set` insertion order) -/

/-- Insert into a sorted list, before the first element not `le`-below the
inserted one (the insertion step of a stable sort). -/
def insertBy (le : α → α → Bool) (a : α) : List α → List α
  | [] => [a]
  | b :: l => if le a b then a :: b :: l else b :: insertBy le a l

/-- Stable insertion sort, the embedding of JS `Array.prototype.sort` with a
comparator (stable per ES2019). -/
def sortBy (le : α → α → Bool) : List α → List α
  | [] => []
  | a :: l => insertBy le a (sortBy le l)

/-- `sorter(fn, 'ASC')` from the repo's helpers: sort ascending by an integer
key. -/
def sortByKeyAsc (key : α → Int) (l : List α) : List α :=
  sortBy (fun a b => decide (key a ≤ key b)) l

/-- First-occurrence deduplication with an explicit seen accumulator. -/
def uniqAux [DecidableEq α] (seen : List α) : List α → List α
  | [] => []
  | a :: l => if a ∈ seen then uniqAux seen l else a :: uniqAux (a :: seen) l

/-- `lodash.uniq`: keep the first occurrence of each element. -/
def uniqList [DecidableEq α] (l : List α) : List α := uniqAux [] l

/-- Deduplicate deals, keeping the first occurrence of each deal id (the
embedding of a JS `Set<Deal>` read back in insertion order: in a consistent
snapshot two deal objects coincide exactly when their ids do). -/
def dedupDealsAux (seen : List String) : List Deal → List Deal
  | [] => []
  | d :: l => if d.id ∈ seen then dedupDealsAux seen l
              else d :: dedupDealsAux (d.id :: seen) l

/-- Deduplicate a list of deals by id, keeping first occurrences. -/
def dedupDeals (l : List Deal) : List Deal := dedupDealsAux [] l

/-! ### Domains and the ignore rule inputs -/

/-- The embedding of `email.toLowerCase().split('@')[1]`: the characters
between the first `@` and the next `@` (or the end), lowercased; the empty
string when the email has no `@`. -/
def emailDomain (e : String) : String :=
  String.mk ((((e.data.map Char.toLower).dropWhile (· ≠ '@')).drop 1).takeWhile (· ≠ '@'))

/-- The technical contact's email domain of a license. -/
def technicalDomain (l : License) : String :=
  emailDomain l.contactDetails.technicalContact.email

/-- `isFreeLicense`: EVALUATION or OPEN_SOURCE. -/
def isFreeLicense (l : License) : Bool :=
  decide (l.licenseType = LicenseType.EVALUATION ∨ l.licenseType = LicenseType.OPEN_SOURCE)

/-! ### Spec-modelled collaborators (code of this repository not under `src/`) -/

/-- Modelled from the spec: the `DealFinder` is not under `src/` (only its
callers are). Per spec §4.2 and the indexes of `DealManager.addIndexes` in
`deal.ts`, existing deals are indexed by their `addonlicenseid` and
`transactionid` properties, empty ids unindexed; `getDeal([license])` resolves
the license's `addonLicenseId` against the license-linked index. -/
def getDealForLicense (initialDeals : List Deal) (l : License) : Option Deal :=
  if l.addonLicenseId = "" then none
  else initialDeals.find? (fun d => d.properties.addonlicenseid == l.addonLicenseId)

/-- Modelled from the spec: `DealFinder.getDeals` (not under `src/`) returns
the set of distinct deals referenced by any of the given records through
either identifier index (spec §4.2, used for refund fan-out). -/
def getDealsForTransactions (initialDeals : List Deal) (txs : List Transaction) : List Deal :=
  dedupDeals (txs.flatMap (fun t =>
    (if t.addonLicenseId = "" then none
     else initialDeals.find? (fun d => d.properties.addonlicenseid == t.addonLicenseId)).toList ++
    (if t.transactionId = "" then none
     else initialDeals.find? (fun d => d.properties.transactionid == t.transactionId)).toList))

/-- Modelled from the spec: `config.constants.dealOrigin` (configuration is
not under `src/`); a fixed string. -/
def dealOrigin : String := "MPAC Lead"

/-- Modelled from the spec: `config.constants.dealRelatedProducts`
(configuration is not under `src/`); a fixed string. -/
def dealRelatedProducts : String := "Marketplace Apps"

/-- Modelled from the spec: the `Pipeline.AtlassianMarketplace` constant
(configuration is not under `src/`); a fixed string. -/
def pipelineAtlassianMarketplace : String := "atlassian-marketplace"

/-- Modelled from the spec: the mustache-rendered templated deal name of
§4.5 (`config.constants.dealDealName` is not under `src/`); a deterministic
function of the license. -/
def renderDealName (l : License) : String := "Deal: " ++ l.addonKey

/-- Modelled from the spec §4.1: the Tier Calculator (`tiers.ts` is not under
`src/`) derives integer tier candidates from the license/transaction context;
the caller takes the maximum. Modelled as the license's parsed tier. -/
def calculateTierFromLicenseContext (license : License) (transactions : List Transaction) : List Nat :=
  [license.tier]

/-- `Math.max(...tiers)` over the (non-empty) tier candidate list. -/
def maxTier (ts : List Nat) : Nat := ts.foldl max 0

/-- The contact directory: lowercase email to CRM contact id (`hs_object_id`),
supplied per run. -/
abbrev ContactsByEmail := String → Option String

/-! ### Deal Property Mapper (`dealPropertiesForLicense`, `contactIdsForLicense`) -/

/-- The property bag computed for a deal, without `dealstage` (the shape of
`Omit<Deal['properties'], 'dealstage'>`). -/
structure GeneratedDealProperties where
  addonlicenseid : String
  transactionid : String
  closedate : Date
  deployment : String
  aa_app : String
  license_tier : String
  country : String
  origin : String
  related_products : String
  dealname : String
  pipeline : String
  amount : String
deriving DecidableEq, Repr

/-- `dealPropertiesForLicense(license, transactions)`: the full recomputed
property bag (minus `dealstage`) for a license and its transactions. The
amount is the vendor amount of the first non-refund transaction in sale-date
order, zero if none, rendered with `toString`. -/
def dealPropertiesForLicense (license : License) (transactions : List Transaction) : GeneratedDealProperties :=
  let tiers := calculateTierFromLicenseContext license transactions
  let tier := maxTier tiers
  let firstPaidTransaction :=
    (sortByKeyAsc (fun tx => tx.purchaseDetails.saleDate) transactions).find?
      (fun tx => tx.purchaseDetails.saleType ≠ SaleType.Refund)
  let amount : Money := (firstPaidTransaction.map (fun tx => tx.purchaseDetails.vendorAmount)).getD 0
  { addonlicenseid := license.addonLicenseId
    transactionid := ""
    closedate :=
      ((sortBy (fun a b => decide (a ≤ b)) (transactions.map (fun tx => tx.purchaseDetails.saleDate))).head?).getD
        license.maintenanceStartDate
    deployment := license.hosting
    aa_app := license.addonKey
    license_tier := Nat.repr tier
    country := license.contactDetails.country
    origin := dealOrigin
    related_products := dealRelatedProducts
    dealname := renderDealName license
    pipeline := pipelineAtlassianMarketplace
    amount := intToString amount }

/-- `contactIdsForLicense(contacts, license)`: the deduplicated contact ids of
the technical, billing and partner billing contacts, lookups with no directory
entry dropped. -/
def contactIdsForLicense (contacts : ContactsByEmail) (license : License) : List String :=
  let techEmail := license.contactDetails.technicalContact.email
  let billingEmail := (license.contactDetails.billingContact.map (fun c => c.email))
  let partnerEmail := (license.partnerDetails.map (fun p => p.billingContact.email))
  let techContact := contacts techEmail
  let billingContact := billingEmail.bind contacts
  let partnerContact := partnerEmail.bind contacts
  uniqList ([techContact, billingContact, partnerContact].filterMap id)

/-! ### Group Classifier (`DealActionGenerator`) -/

/-- A `DealCreateAction` of the classifier. -/
structure DealCreateAction where
  dealstage : DealStage
  license : License
  transactions : List Transaction
  amount : String
deriving DecidableEq, Repr

/-- The property overrides carried by a `DealUpdateAction`. -/
structure UpdateActionProperties where
  addonlicenseid : String
  closedate : Option Date
  amount : Option String
  dealstage : Option DealStage
deriving DecidableEq, Repr

/-- A `DealUpdateAction` of the classifier. -/
structure DealUpdateAction where
  id : String
  license : Option License
  transactions : List Transaction
  properties : UpdateActionProperties
deriving DecidableEq, Repr

/-- One entry of an ignored license set: the license with its reason tag. -/
structure IgnoredLicense where
  reason : String
  license : License
deriving DecidableEq, Repr

/-- The accumulating state of `DealActionGenerator` (its three output lists). -/
structure GenState where
  dealCreateActions : List DealCreateAction
  dealUpdateActions : List DealUpdateAction
  ignoredLicenseSets : List (List IgnoredLicense)
deriving DecidableEq, Repr

/-- `dealCreateActions.push(a)`. -/
def pushCreate (a : DealCreateAction) (s : GenState) : GenState :=
  { s with dealCreateActions := s.dealCreateActions ++ [a] }

/-- `dealUpdateActions.push(a)`. -/
def pushUpdate (a : DealUpdateAction) (s : GenState) : GenState :=
  { s with dealUpdateActions := s.dealUpdateActions ++ [a] }

/-- `ignoreLicenses(reason, licenses)`: record one ignored license set. -/
def ignoreLicenses (reason : String) (licenses : List License) (s : GenState) : GenState :=
  { s with ignoredLicenseSets :=
      s.ignoredLicenseSets ++ [licenses.map (fun l => { reason := reason, license := l })] }

/-- `DealActionGenerator.ignoring`: when every license's technical-contact
domain is in the partner or mass-provider set, record the group with a
`bad-domains:` reason and report `some` of the new state; otherwise `none`
(meaning: not ignored). -/
def ignoring (providerDomains partnerDomains : List String) (s : GenState)
    (groups : RelatedLicenseSet) : Option GenState :=
  let licenses := groups.map (fun g => g.license)
  let domains := licenses.map technicalDomain
  let badDomains := domains.filter (fun d => partnerDomains.contains d || providerDomains.contains d)
  if badDomains.length = licenses.length then
    some (ignoreLicenses ("bad-domains:" ++ String.intercalate "," (uniqList badDomains)) licenses s)
  else
    none

/-- The `...(price && { amount: price.toFixed(2) })` spread: the `amount`
override is present only when the price exists and is JS-truthy (nonzero). -/
def truthyAmount (price : Option Money) : Option String :=
  match price with
  | some p => if p ≠ 0 then some (toFixed2 p) else none
  | none => none

/-- The mixed/paid branch's `transactions` local: all the group's transactions
whose sale type is not Refund, sorted ascending by sale date. -/
def sortedNonRefundTransactions (groups : RelatedLicenseSet) : List Transaction :=
  sortByKeyAsc (fun tx => tx.purchaseDetails.saleDate)
    ((groups.flatMap (fun g => g.transactions)).filter
      (fun tx => tx.purchaseDetails.saleType ≠ SaleType.Refund))

/-- The mixed/paid branch's `price` local: the vendor amount of the first
sorted non-refund transaction, if any (`transactions.find(tx => tx)`). -/
def groupPrice (groups : RelatedLicenseSet) : Option Money :=
  (sortedNonRefundTransactions groups).head?.map (fun tx => tx.purchaseDetails.vendorAmount)

/-- `DealActionGenerator.generateActionsForMatchedGroup`: classify one group
and extend the state; `none` is a fatal `assert.ok` failure (the empty-group
assert, or an all-free group that carries transactions). The live source path
is embedded: the commented-out event-interpretation call to the
`ActionGenerator` is dead code and does not run. -/
def generateActionsForMatchedGroup (providerDomains partnerDomains : List String)
    (initialDeals : List Deal) (s : GenState) (groups : RelatedLicenseSet) : Option GenState :=
  if groups.length = 0 then none
  else
    match ignoring providerDomains partnerDomains s groups with
    | some s' => some s'
    | none =>
      let licenseDeals :=
        dedupDeals ((groups.map (fun g => g.license)).filterMap (getDealForLicense initialDeals))
      let deal : Option Deal := licenseDeals.head?
      let licenses := sortByKeyAsc (fun l => l.maintenanceStartDate) (groups.map (fun g => g.license))
      if licenses.all isFreeLicense then
        if (groups.flatMap (fun g => g.transactions)).length ≠ 0 then none
        else
          match licenses.getLast? with
          | none => none
          | some latestLicense =>
            match deal with
            | some d =>
              if latestLicense.status = LicenseStatus.active then
                let closeDate :=
                  ((sortBy (fun a b => decide (a ≤ b))
                      ((groups.flatMap (fun g => g.transactions)).map
                        (fun tx => tx.purchaseDetails.saleDate))).head?).getD
                    latestLicense.maintenanceStartDate
                if closeDate ≠ d.properties.closedate ∨
                    latestLicense.addonLicenseId ≠ d.properties.addonlicenseid then
                  some (pushUpdate
                    { id := d.id, license := none,
                      transactions := groups.flatMap (fun g => g.transactions),
                      properties :=
                        { addonlicenseid := latestLicense.addonLicenseId,
                          closedate := some closeDate, amount := none, dealstage := none } } s)
                else
                  some (ignoreLicenses "eval-up-to-date" licenses s)
              else
                some (pushUpdate
                  { id := d.id, license := none,
                    transactions := groups.flatMap (fun g => g.transactions),
                    properties :=
                      { addonlicenseid := latestLicense.addonLicenseId,
                        closedate := none, amount := none,
                        dealstage := some DealStage.CLOSED_LOST } } s)
            | none =>
              if latestLicense.status = LicenseStatus.active then
                some (pushCreate
                  { dealstage := DealStage.EVAL,
                    transactions := groups.flatMap (fun g => g.transactions),
                    license := latestLicense, amount := "0" } s)
              else
                some (ignoreLicenses "inactive-evals" licenses s)
      else
        match licenses.head? with
        | none => none
        | some firstLicense =>
          let isFirstEval := isFreeLicense firstLicense
          let firstFoundPaid := licenses.find? (fun l => ! isFreeLicense l)
          let transactions := sortedNonRefundTransactions groups
          let price : Option Money := groupPrice groups
          match firstFoundPaid with
          | none => some s
          | some ffp =>
            if isFirstEval then
              match deal with
              | some d =>
                some (pushUpdate
                  { id := d.id, license := some ffp, transactions := transactions,
                    properties :=
                      { addonlicenseid := ffp.addonLicenseId, closedate := none,
                        amount := truthyAmount price,
                        dealstage := some DealStage.CLOSED_WON } } s)
              | none =>
                some (pushCreate
                  { dealstage := DealStage.CLOSED_WON, license := ffp,
                    transactions := transactions,
                    amount := toFixed2 (price.getD 0) } s)
            else
              match deal with
              | some d =>
                if d.properties.dealstage = DealStage.EVAL then
                  some (pushUpdate
                    { id := d.id, license := some ffp, transactions := transactions,
                      properties :=
                        { addonlicenseid := ffp.addonLicenseId, closedate := none,
                          amount := truthyAmount price,
                          dealstage := some DealStage.CLOSED_WON } } s)
                else
                  some s
              | none =>
                some (pushCreate
                  { dealstage := DealStage.CLOSED_WON, license := ffp,
                    transactions := transactions,
                    amount := toFixed2 (price.getD 0) } s)

/-- The classifier driver loop of `generateDealActions`: fold the matched
groups through `generateActionsForMatchedGroup`, stopping on a fatal
assertion. -/
def runGroups (providerDomains partnerDomains : List String) (initialDeals : List Deal)
    (s : GenState) : List RelatedLicenseSet → Option GenState
  | [] => some s
  | g :: rest =>
    match generateActionsForMatchedGroup providerDomains partnerDomains initialDeals s g with
    | none => none
    | some s' => runGroups providerDomains partnerDomains initialDeals s' rest

/-- `generateDealActions`: run all groups from the empty state; the ignored
license sets are the audit output handed to `saveForInspection`. -/
def generateDealActions (matchedGroups : List RelatedLicenseSet) (initialDeals : List Deal)
    (providerDomains partnerDomains : List String) : Option GenState :=
  runGroups providerDomains partnerDomains initialDeals
    { dealCreateActions := [], dealUpdateActions := [], ignoredLicenseSets := [] } matchedGroups

/-! ### The `generateDeals` output stage (merging, no-op suppression, associations) -/

/-- A deal-create request handed to collaborators: full property bag plus
contact ids, no id (`Omit<Deal, 'id'>`). -/
structure NewDeal where
  contactIds : List String
  properties : DealProperties
deriving DecidableEq, Repr

/-- A deal-update request: target id plus only-changed properties. -/
structure DealUpdate where
  id : String
  properties : OptDealProperties
deriving DecidableEq, Repr

/-- A contact-to-deal association mutation: `(contactId, dealId)`. -/
abbrev Association := String × String

/-- `{...generatedProperties, amount, dealstage}`: the full property bag of a
create request. -/
def mkCreateProperties (g : GeneratedDealProperties) (amount : String) (dealstage : DealStage) : DealProperties :=
  { addonlicenseid := g.addonlicenseid, transactionid := g.transactionid,
    closedate := g.closedate, deployment := g.deployment, aa_app := g.aa_app,
    license_tier := g.license_tier, country := g.country, origin := g.origin,
    related_products := g.related_products, dealname := g.dealname,
    pipeline := g.pipeline, amount := amount, dealstage := dealstage }

/-- `{...generatedProperties, ...properties}`: requested overrides merged on
top of freshly recomputed properties (the update-with-license branch). -/
def mergeGeneratedWithOverrides (g : GeneratedDealProperties) (o : UpdateActionProperties) : OptDealProperties :=
  { addonlicenseid := some o.addonlicenseid
    transactionid := some g.transactionid
    closedate := some (o.closedate.getD g.closedate)
    deployment := some g.deployment
    aa_app := some g.aa_app
    license_tier := some g.license_tier
    country := some g.country
    origin := some g.origin
    related_products := some g.related_products
    dealname := some g.dealname
    pipeline := some g.pipeline
    amount := some (o.amount.getD g.amount)
    dealstage := o.dealstage }

/-- The property bag of an update action taken as-is (the no-license branch:
`newDeal = { id, properties }`). -/
def optOfUpdateProperties (o : UpdateActionProperties) : OptDealProperties :=
  { emptyOptProperties with
    addonlicenseid := some o.addonlicenseid
    closedate := o.closedate
    amount := o.amount
    dealstage := o.dealstage }

/-- The proposed property bag of one update candidate, before no-op
stripping. -/
def mergedPropertiesFor (cand : DealUpdateAction) : OptDealProperties :=
  match cand.license with
  | some license => mergeGeneratedWithOverrides (dealPropertiesForLicense license cand.transactions) cand.properties
  | none => optOfUpdateProperties cand.properties

/-- One step of `delete newDeal.properties[key]`: drop a proposed value equal
to the stored one. -/
def diffField [DecidableEq α] (proposed : Option α) (stored : α) : Option α :=
  match proposed with
  | some v => if v = stored then none else some v
  | none => none

/-- Strip every proposed property whose value equals the deal's stored value
(the `for (const [key, val] of Object.entries(...))` loop). -/
def stripUnchanged (p : OptDealProperties) (old : DealProperties) : OptDealProperties :=
  { addonlicenseid := diffField p.addonlicenseid old.addonlicenseid
    transactionid := diffField p.transactionid old.transactionid
    closedate := diffField p.closedate old.closedate
    deployment := diffField p.deployment old.deployment
    aa_app := diffField p.aa_app old.aa_app
    license_tier := diffField p.license_tier old.license_tier
    country := diffField p.country old.country
    origin := diffField p.origin old.origin
    related_products := diffField p.related_products old.related_products
    dealname := diffField p.dealname old.dealname
    pipeline := diffField p.pipeline old.pipeline
    amount := diffField p.amount old.amount
    dealstage := diffField p.dealstage old.dealstage }

/-- The result of processing one update candidate in the `generateDeals`
loop: at most one update request, plus association mutations. -/
structure CandidateResult where
  dealUpdate : Option DealUpdate
  associationsToCreate : List Association
  associationsToRemove : List Association
deriving DecidableEq, Repr

/-- The body of the `generateDeals` loop over `dealUpdateActions`: look up the
old deal (`assert.ok(oldDeal)`: `none` is a fatal failure), diff the contact
associations when the candidate carries a license, merge and strip the
property bag, and emit the update only when the diff is non-empty. -/
def applyUpdateCandidate (initialDeals : List Deal) (contacts : ContactsByEmail)
    (cand : DealUpdateAction) : Option CandidateResult :=
  match initialDeals.find? (fun d => d.id == cand.id) with
  | none => none
  | some oldDeal =>
    let assocs : List Association × List Association :=
      match cand.license with
      | some license =>
        let oldAssociatedContactIds := oldDeal.contactIds
        let newAssociatedContactIds := contactIdsForLicense contacts license
        let creating := newAssociatedContactIds.filter (fun i => ! oldAssociatedContactIds.contains i)
        let removing := oldAssociatedContactIds.filter (fun i => ! newAssociatedContactIds.contains i)
        (creating.map (fun contactId => (contactId, oldDeal.id)),
         removing.map (fun contactId => (contactId, oldDeal.id)))
      | none => ([], [])
    let finalProperties := stripUnchanged (mergedPropertiesFor cand) oldDeal.properties
    some { dealUpdate :=
             if finalProperties = emptyOptProperties then none
             else some { id := cand.id, properties := finalProperties },
           associationsToCreate := assocs.1,
           associationsToRemove := assocs.2 }

/-- Process all update candidates in order, accumulating update requests and
association mutations; `none` propagates a fatal assertion failure. -/
def processUpdateCandidates (initialDeals : List Deal) (contacts : ContactsByEmail) :
    List DealUpdateAction → Option (List DealUpdate × List Association × List Association)
  | [] => some ([], [], [])
  | c :: rest =>
    match applyUpdateCandidate initialDeals contacts c with
    | none => none
    | some r =>
      match processUpdateCandidates initialDeals contacts rest with
      | none => none
      | some (us, ac, ar) =>
        some (r.dealUpdate.toList ++ us,
              r.associationsToCreate ++ ac,
              r.associationsToRemove ++ ar)

/-- `NINETY_DAYS_AS_MS`. -/
def NINETY_DAYS_AS_MS : Int := 1000 * 60 * 60 * 24 * 90

/-- `olderThan90Days(dateString)`, with the clock an explicit parameter. -/
def olderThan90Days (now : Date) (date : Date) : Bool :=
  decide (now - date > NINETY_DAYS_AS_MS)

/-- The input of `generateDeals`. -/
structure GenerateDealsInput where
  allMatches : List RelatedLicenseSet
  initialDeals : List Deal
  contactsByEmail : ContactsByEmail
  providerDomains : List String
  partnerDomains : List String

/-- The output of `generateDeals`, together with the ignored-group audit list
(which the source hands to `saveForInspection`). -/
structure GenerateDealsOutput where
  dealsToCreate : List NewDeal
  dealsToUpdate : List DealUpdate
  associationsToCreate : List Association
  associationsToRemove : List Association
  ignoredLicenseSets : List (List IgnoredLicense)
deriving DecidableEq, Repr

/-- `generateDeals`: drop groups in which every license's maintenance start is
older than 90 days, run the classifier, then build the create requests and the
diffed update requests plus association mutations. `none` is a fatal
assertion failure. -/
def generateDeals (now : Date) (data : GenerateDealsInput) : Option GenerateDealsOutput :=
  let matchedGroups := data.allMatches.filter
    (fun group => group.any (fun m => ! olderThan90Days now m.license.maintenanceStartDate))
  match generateDealActions matchedGroups data.initialDeals data.providerDomains data.partnerDomains with
  | none => none
  | some res =>
    let dealsToCreate := res.dealCreateActions.map (fun a =>
      { contactIds := contactIdsForLicense data.contactsByEmail a.license
        properties := mkCreateProperties (dealPropertiesForLicense a.license a.transactions)
          a.amount a.dealstage : NewDeal })
    match processUpdateCandidates data.initialDeals data.contactsByEmail res.dealUpdateActions with
    | none => none
    | some (dealsToUpdate, ac, ar) =>
      some { dealsToCreate := dealsToCreate, dealsToUpdate := dealsToUpdate,
             associationsToCreate := ac, associationsToRemove := ar,
             ignoredLicenseSets := res.ignoredLicenseSets }

/-! ### Applying actions to a snapshot (for the idempotence property) -/

/-- Overwrite the present properties of a bag onto a full bag (what applying
an update request to a CRM deal does). -/
def overwriteProperties (p : OptDealProperties) (old : DealProperties) : DealProperties :=
  { addonlicenseid := p.addonlicenseid.getD old.addonlicenseid
    transactionid := p.transactionid.getD old.transactionid
    closedate := p.closedate.getD old.closedate
    deployment := p.deployment.getD old.deployment
    aa_app := p.aa_app.getD old.aa_app
    license_tier := p.license_tier.getD old.license_tier
    country := p.country.getD old.country
    origin := p.origin.getD old.origin
    related_products := p.related_products.getD old.related_products
    dealname := p.dealname.getD old.dealname
    pipeline := p.pipeline.getD old.pipeline
    amount := p.amount.getD old.amount
    dealstage := p.dealstage.getD old.dealstage }

/-- Apply one update request to one deal (no-op on other deals). -/
def applyDealUpdate (u : DealUpdate) (d : Deal) : Deal :=
  if d.id = u.id then { d with properties := overwriteProperties u.properties d.properties }
  else d

/-- Modelled from the spec: applying the emitted actions to the existing-deal
snapshot. The engine is a pure function emitting actions; applying them is a
collaborator's responsibility (spec §1/§6), and the repository's 3x harness
pipes each run's resulting deal set (updates applied, creates materialized
with fresh fake ids) into the next run. Creates receive the fresh ids
`fake-0`, `fake-1`, … (`populateFakeIds`). -/
def applyActions (initialDeals : List Deal) (out : GenerateDealsOutput) : List Deal :=
  (initialDeals.map (fun d => out.dealsToUpdate.foldl (fun d u => applyDealUpdate u d) d)) ++
  ((out.dealsToCreate.zip (List.range out.dealsToCreate.length)).map
    (fun p => { id := "fake-" ++ Nat.repr p.2, contactIds := p.1.contactIds,
                properties := p.1.properties : Deal }))

/-! ### Action Generator: the refund rule -/

/-- A refund event of the `ActionGenerator`: the set of refunded transactions
plus the originating groups. -/
structure RefundEvent where
  groups : List LicenseContext
  refundedTxs : List Transaction
deriving DecidableEq, Repr

/-- An `Action` of the `ActionGenerator` (discriminated union). -/
inductive AGAction
| update (groups : List LicenseContext) (deal : Deal) (properties : OptDealProperties)
| create (groups : List LicenseContext) (properties : DealProperties)
deriving DecidableEq, Repr

/-- `Object.assign(combined, properties)`: fields present in the override win,
absent fields keep the base. -/
def assignProperties (base override : OptDealProperties) : OptDealProperties :=
  { addonlicenseid := override.addonlicenseid <|> base.addonlicenseid
    transactionid := override.transactionid <|> base.transactionid
    closedate := override.closedate <|> base.closedate
    deployment := override.deployment <|> base.deployment
    aa_app := override.aa_app <|> base.aa_app
    license_tier := override.license_tier <|> base.license_tier
    country := override.country <|> base.country
    origin := override.origin <|> base.origin
    related_products := override.related_products <|> base.related_products
    dealname := override.dealname <|> base.dealname
    pipeline := override.pipeline <|> base.pipeline
    amount := override.amount <|> base.amount
    dealstage := override.dealstage <|> base.dealstage }

/-- Modelled from the spec: `dealUpdateProperties(deal, record)` lives in
`records.ts`, which is not under `src/`. Per spec §4.3/§4.5 it refreshes the
identifying fields recomputed from the record, dropping values identical to
the deal's stored ones. It is only reached with a non-null record, which no
live classifier path and no claim exercises. -/
def dealUpdateProperties (deal : Deal) (recordAddonLicenseId : String) : OptDealProperties :=
  { emptyOptProperties with
    addonlicenseid := diffField (some recordAddonLicenseId) deal.properties.addonlicenseid }

/-- `makeUpdateAction(event, deal, record, properties)`: combine the record's
refreshed properties (none when the record is null) with the explicit
overrides; `none` when the combined bag is empty. -/
def makeUpdateAction (groups : List LicenseContext) (deal : Deal)
    (record : Option String) (properties : OptDealProperties) : Option AGAction :=
  let combinedProperties :=
    match record with
    | some r => dealUpdateProperties deal r
    | none => emptyOptProperties
  let combinedProperties := assignProperties combinedProperties properties
  if combinedProperties = emptyOptProperties then none
  else some (AGAction.update groups deal combinedProperties)

/-- `ActionGenerator.actionForRefund`: for each distinct deal referenced by
the refunded transactions and not already CLOSED_LOST, emit an update setting
`dealstage` to CLOSED_LOST. -/
def actionForRefund (initialDeals : List Deal) (event : RefundEvent) : List AGAction :=
  let deals := getDealsForTransactions initialDeals event.refundedTxs
  (deals.filter (fun deal => deal.properties.dealstage ≠ DealStage.CLOSED_LOST)).filterMap
    (fun deal => makeUpdateAction event.groups deal none
      { emptyOptProperties with dealstage := some DealStage.CLOSED_LOST })

/-- Whether an `ActionGenerator` action is an update targeting the given deal
id. -/
def targetsDealId (id : String) (a : AGAction) : Bool :=
  match a with
  | AGAction.update _ d _ => d.id == id
  | AGAction.create _ _ => false

/-! ### Statement vocabulary -/

/-- A proposed optional value agrees with a stored one when it is absent or
equal to it. -/
abbrev optAgrees (o : Option α) (a : α) : Prop := o = none ∨ o = some a

/-- Every proposed property of a merged bag equals the existing deal's stored
value for that property (absent properties propose nothing). -/
abbrev proposedMatchesStored (m : OptDealProperties) (old : DealProperties) : Prop :=
  optAgrees m.addonlicenseid old.addonlicenseid ∧
  optAgrees m.transactionid old.transactionid ∧
  optAgrees m.closedate old.closedate ∧
  optAgrees m.deployment old.deployment ∧
  optAgrees m.aa_app old.aa_app ∧
  optAgrees m.license_tier old.license_tier ∧
  optAgrees m.country old.country ∧
  optAgrees m.origin old.origin ∧
  optAgrees m.related_products old.related_products ∧
  optAgrees m.dealname old.dealname ∧
  optAgrees m.pipeline old.pipeline ∧
  optAgrees m.amount old.amount ∧
  optAgrees m.dealstage old.dealstage

/-! ### Concrete fixtures for witnesses and counterexamples -/

/-- A license fixture with the given identity, type, status, maintenance
start and technical-contact email. -/
def mkLicense (aid : String) (t : LicenseType) (st : LicenseStatus) (msd : Date) (email : String) : License :=
  { addonLicenseId := aid, licenseId := none, licenseType := t, status := st,
    maintenanceStartDate := msd, hosting := "Server", addonKey := "app",
    contactDetails := { technicalContact := { email := email }, billingContact := none, country := "US" },
    partnerDetails := none, tier := 1 }

/-- A deal fixture with the given id, identifying properties, close date,
amount, stage and associated contacts. -/
def mkDeal (id aid tid : String) (cd : Date) (amount : String) (stage : DealStage) (cids : List String) : Deal :=
  { id := id, contactIds := cids,
    properties :=
      { addonlicenseid := aid, transactionid := tid, closedate := cd,
        deployment := "Server", aa_app := "app", license_tier := "1", country := "US",
        origin := dealOrigin, related_products := dealRelatedProducts, dealname := "Deal: app",
        pipeline := pipelineAtlassianMarketplace, amount := amount, dealstage := stage } }

/-- The classifier's starting state. -/
def emptyGenState : GenState := { dealCreateActions := [], dealUpdateActions := [], ignoredLicenseSets := [] }

/-- An active EVALUATION license (maintenance start 0). -/
def evalLic : License := mkLicense "L1" LicenseType.EVALUATION LicenseStatus.active 0 "a@x.com"

/-- An active COMMERCIAL license (maintenance start 1). -/
def commLic : License := mkLicense "L2" LicenseType.COMMERCIAL LicenseStatus.active 1 "b@x.com"

/-- A refund transaction against `commLic`. -/
def refundTx : Transaction :=
  { addonLicenseId := "L2", transactionId := "T1",
    purchaseDetails := { saleDate := 5, saleType := SaleType.Refund, vendorAmount := -100 } }

/-- A CLOSED_WON deal matching `commLic` and `refundTx`. -/
def c1deal : Deal := mkDeal "D1" "L2" "T1" 1 "100.00" DealStage.CLOSED_WON []

/-- The refund event for `refundTx`. -/
def c1event : RefundEvent := { groups := [⟨commLic, [refundTx]⟩], refundedTxs := [refundTx] }

/-- The idempotence-check input: one eval-to-paid conversion group with no
transactions, an empty deal snapshot, an empty contact directory, and no
excluded domains. -/
def c4data : GenerateDealsInput :=
  { allMatches := [[⟨evalLic, []⟩, ⟨commLic, []⟩]], initialDeals := [],
    contactsByEmail := fun _ => none, providerDomains := [], partnerDomains := [] }

/-- The second engine run on `c4data`: the first run's creates and updates
applied to the snapshot and fed back in. -/
def c4run2 : Option GenerateDealsOutput :=
  (generateDeals 0 c4data).bind (fun out1 =>
    generateDeals 0 { c4data with initialDeals := applyActions c4data.initialDeals out1 })

/-- A CLOSED_WON deal matching `commLic` by license id only. -/
def c7deal : Deal := mkDeal "D7" "L2" "" 1 "50.00" DealStage.CLOSED_WON []

/-- A purchase transaction (sale date 3, vendor amount 100). -/
def t1 : Transaction :=
  { addonLicenseId := "L2", transactionId := "T2",
    purchaseDetails := { saleDate := 3, saleType := SaleType.New, vendorAmount := 100 } }

/-- A renewal transaction (sale date 2, vendor amount 70): the earliest
non-refund transaction of the mixed fixture group. -/
def t2 : Transaction :=
  { addonLicenseId := "L2", transactionId := "T3",
    purchaseDetails := { saleDate := 2, saleType := SaleType.Renewal, vendorAmount := 70 } }

/-- A refund transaction (sale date 4). -/
def t3 : Transaction :=
  { addonLicenseId := "L2", transactionId := "T4",
    purchaseDetails := { saleDate := 4, saleType := SaleType.Refund, vendorAmount := -100 } }

/-- A paid group fixture with transactions `t1`, `t2`, `t3`. -/
def c7group : RelatedLicenseSet := [⟨commLic, [t1, t2, t3]⟩]

/-- The state after classifying `c7group` from the empty state with no
matching deal: one CLOSED_WON create action priced at the earliest non-refund
vendor amount. -/
def c7state : GenState :=
  { dealCreateActions :=
      [{ dealstage := DealStage.CLOSED_WON, license := commLic, transactions := [t2, t1], amount := "70.00" }],
    dealUpdateActions := [], ignoredLicenseSets := [] }

/-- A full-pipeline input around the no-non-refund-transaction conversion
group: the group matches `c7deal`, whose stored amount is "50.00". -/
def c7data : GenerateDealsInput :=
  { allMatches := [[⟨evalLic, []⟩, ⟨commLic, []⟩]], initialDeals := [c7deal],
    contactsByEmail := fun _ => none, providerDomains := [], partnerDomains := [] }

/-- An active EVALUATION license for the Scenario A witness. -/
def lic8 : License := mkLicense "L8" LicenseType.EVALUATION LicenseStatus.active 0 "t@c.com"

/-- A license whose technical contact is on a partner domain. -/
def licP : License := mkLicense "LP" LicenseType.COMMERCIAL LicenseStatus.active 0 "p@partner.com"

/-- An active EVALUATION license for the no-op-suppression witness. -/
def lic3 : License := mkLicense "L3" LicenseType.EVALUATION LicenseStatus.active 0 "t@c.com"

/-- An EVAL deal for `lic3` whose stored close date is stale. -/
def deal3 : Deal := mkDeal "D3" "L3" "" 99 "0" DealStage.EVAL []

/-- Input for the no-op-suppression witness: one eval group whose deal needs
a close-date refresh. -/
def c3data : GenerateDealsInput :=
  { allMatches := [[⟨lic3, []⟩]], initialDeals := [deal3],
    contactsByEmail := fun _ => none, providerDomains := [], partnerDomains := [] }

/-- The output of `generateDeals` on `c3data`: one close-date-only update. -/
def c3out : GenerateDealsOutput :=
  { dealsToCreate := [],
    dealsToUpdate := [{ id := "D3", properties := { emptyOptProperties with closedate := some 0 } }],
    associationsToCreate := [], associationsToRemove := [], ignoredLicenseSets := [] }

/-- An update candidate proposing only values the stored deal already has. -/
def cand3 : DealUpdateAction :=
  { id := "D3", license := none, transactions := [],
    properties := { addonlicenseid := "L3", closedate := none, amount := none, dealstage := none } }

/-- An active EVALUATION license for the stage-monotonicity witness. -/
def lic5 : License := mkLicense "L5" LicenseType.EVALUATION LicenseStatus.active 0 "t@c.com"

/-- A CLOSED_WON deal for `lic5` with a stale close date. -/
def c5deal : Deal := mkDeal "D5" "L5" "" 99 "0" DealStage.CLOSED_WON []

/-- Input for the stage-monotonicity witness. -/
def c5data : GenerateDealsInput :=
  { allMatches := [[⟨lic5, []⟩]], initialDeals := [c5deal],
    contactsByEmail := fun _ => none, providerDomains := [], partnerDomains := [] }

/-- The output of `generateDeals` on `c5data`: one close-date-only update. -/
def c5out : GenerateDealsOutput :=
  { dealsToCreate := [],
    dealsToUpdate := [{ id := "D5", properties := { emptyOptProperties with closedate := some 0 } }],
    associationsToCreate := [], associationsToRemove := [], ignoredLicenseSets := [] }

/-- A two-entry contact directory for the association-diffing witness. -/
def contacts9 : ContactsByEmail := fun e =>
  if e = "t@x.com" then some "C1" else if e = "b@x.com" then some "C2" else none

/-- A license with technical and billing contacts in `contacts9`. -/
def lic9 : License :=
  { addonLicenseId := "L9", licenseId := none, licenseType := LicenseType.COMMERCIAL,
    status := LicenseStatus.active, maintenanceStartDate := 0, hosting := "Server", addonKey := "app",
    contactDetails := { technicalContact := { email := "t@x.com" },
                        billingContact := some { email := "b@x.com" }, country := "US" },
    partnerDetails := none, tier := 1 }

/-- A deal whose stored contacts are `C2` (kept) and `C3` (to be removed). -/
def d9 : Deal := mkDeal "D9" "L9" "" 0 "0" DealStage.EVAL ["C2", "C3"]

/-- An update candidate carrying `lic9`. -/
def cand9 : DealUpdateAction :=
  { id := "D9", license := some lic9, transactions := [],
    properties := { addonlicenseid := "L9", closedate := none, amount := none,
                    dealstage := some DealStage.CLOSED_WON } }

/-- The result of processing `cand9` against `d9`: create `(C1, D9)`, remove
`(C3, D9)`. -/
def res9 : CandidateResult :=
  { dealUpdate := some { id := "D9", properties := { emptyOptProperties with dealstage := some DealStage.CLOSED_WON } },
    associationsToCreate := [("C1", "D9")], associationsToRemove := [("C3", "D9")] }

/-- A license whose maintenance start is in the distant past. -/
def lic10 : License := mkLicense "L10" LicenseType.EVALUATION LicenseStatus.active 0 "t@c.com"

/-- A base `generateDeals` input with no groups. -/
def data10 : GenerateDealsInput :=
  { allMatches := [], initialDeals := [], contactsByEmail := fun _ => none,
    providerDomains := [], partnerDomains := [] }

/-! ## Helper lemmas about the list operations -/

theorem insertBy_perm (le : α → α → Bool) (a : α) (l : List α) :
    (insertBy le a l).Perm (a :: l) := by
  induction l with
  | nil => rfl
  | cons b m ih =>
    simp only [insertBy]
    split
    · rfl
    · exact (ih.cons b).trans (List.Perm.swap a b m)

theorem sortBy_perm (le : α → α → Bool) (l : List α) : (sortBy le l).Perm l := by
  induction l with
  | nil => rfl
  | cons a m ih => exact (insertBy_perm le a (sortBy le m)).trans (ih.cons a)

theorem mem_sortBy (le : α → α → Bool) (l : List α) (a : α) :
    a ∈ sortBy le l ↔ a ∈ l :=
  (sortBy_perm le l).mem_iff

theorem sortBy_all (le : α → α → Bool) (p : α → Bool) (l : List α) :
    (sortBy le l).all p = l.all p := by
  apply Bool.eq_iff_iff.mpr
  simp only [List.all_eq_true]
  constructor
  · intro h a ha
    exact h a ((mem_sortBy le l a).mpr ha)
  · intro h a ha
    exact h a ((mem_sortBy le l a).mp ha)

theorem sortBy_eq_nil_iff (le : α → α → Bool) (l : List α) :
    sortBy le l = [] ↔ l = [] := by
  constructor
  · intro h
    have := (sortBy_perm le l).length_eq
    rw [h] at this
    exact List.length_eq_zero.mp this.symm
  · intro h
    rw [h]
    rfl

theorem pairwise_insertBy (le : α → α → Bool)
    (htot : ∀ a b, le a b = true ∨ le b a = true)
    (htrans : ∀ a b c, le a b = true → le b c = true → le a c = true)
    (a : α) (l : List α) (h : l.Pairwise (fun x y => le x y = true)) :
    (insertBy le a l).Pairwise (fun x y => le x y = true) := by
  induction l with
  | nil =>
    show List.Pairwise _ [a]
    simp
  | cons b m ih =>
    simp only [insertBy]
    rcases List.pairwise_cons.mp h with ⟨hb, hm⟩
    split
    · rename_i hab
      refine List.pairwise_cons.mpr ⟨?_, h⟩
      intro x hx
      rcases List.mem_cons.mp hx with hx | hx
      · rw [hx]; exact hab
      · exact htrans a b x hab (hb x hx)
    · rename_i hab
      refine List.pairwise_cons.mpr ⟨?_, ih hm⟩
      intro x hx
      rcases List.mem_cons.mp ((insertBy_perm le a m).mem_iff.mp hx) with hx | hx
      · rw [hx]
        rcases htot a b with hc | hc
        · exact absurd hc hab
        · exact hc
      · exact hb x hx

theorem pairwise_sortBy (le : α → α → Bool)
    (htot : ∀ a b, le a b = true ∨ le b a = true)
    (htrans : ∀ a b c, le a b = true → le b c = true → le a c = true)
    (l : List α) : (sortBy le l).Pairwise (fun x y => le x y = true) := by
  induction l with
  | nil => simp [sortBy]
  | cons a m ih => exact pairwise_insertBy le htot htrans a (sortBy le m) ih

theorem sortByKeyAsc_head_le (key : α → Int) (l : List α) (x : α) (rest : List α)
    (h : sortByKeyAsc key l = x :: rest) :
    ∀ y ∈ l, key x ≤ key y := by
  intro y hy
  have htot : ∀ a b : α, decide (key a ≤ key b) = true ∨ decide (key b ≤ key a) = true := by
    intro a b
    rcases le_total (key a) (key b) with hc | hc
    · exact Or.inl (by simpa using hc)
    · exact Or.inr (by simpa using hc)
  have htrans : ∀ a b c : α, decide (key a ≤ key b) = true → decide (key b ≤ key c) = true →
      decide (key a ≤ key c) = true := by
    intro a b c h1 h2
    simp only [decide_eq_true_eq] at h1 h2 ⊢
    exact le_trans h1 h2
  have hp := pairwise_sortBy (fun a b => decide (key a ≤ key b)) htot htrans l
  rw [sortByKeyAsc] at h
  rw [h] at hp
  have hy' : y ∈ x :: rest := by
    rw [← h]
    exact (mem_sortBy _ l y).mpr hy
  rcases List.mem_cons.mp hy' with hc | hc
  · rw [hc]
  · have := (List.pairwise_cons.mp hp).1 y hc
    simpa using this

theorem mem_uniqAux [DecidableEq α] (seen : List α) (l : List α) (a : α) :
    a ∈ uniqAux seen l ↔ a ∈ l ∧ a ∉ seen := by
  induction l generalizing seen with
  | nil => simp [uniqAux]
  | cons b m ih =>
    simp only [uniqAux]
    split
    · rename_i hb
      rw [ih seen]
      simp only [List.mem_cons]
      constructor
      · intro ⟨h1, h2⟩
        exact ⟨Or.inr h1, h2⟩
      · intro ⟨h1, h2⟩
        rcases h1 with h1 | h1
        · exact absurd (h1 ▸ hb) h2
        · exact ⟨h1, h2⟩
    · rename_i hb
      simp only [List.mem_cons, ih (b :: seen), List.mem_cons]
      constructor
      · intro h
        rcases h with h | ⟨h1, h2⟩
        · refine ⟨Or.inl h, ?_⟩
          rw [h]
          exact hb
        · exact ⟨Or.inr h1, fun hc => h2 (Or.inr hc)⟩
      · intro ⟨h1, h2⟩
        rcases h1 with h1 | h1
        · exact Or.inl h1
        · by_cases hab : a = b
          · exact Or.inl hab
          · exact Or.inr ⟨h1, fun hc => (by
              rcases hc with hc | hc
              · exact hab hc
              · exact h2 hc)⟩

theorem nodup_uniqAux [DecidableEq α] (seen : List α) (l : List α) :
    (uniqAux seen l).Nodup := by
  induction l generalizing seen with
  | nil => simp [uniqAux]
  | cons b m ih =>
    simp only [uniqAux]
    split
    · exact ih seen
    · refine List.nodup_cons.mpr ⟨?_, ih (b :: seen)⟩
      intro hc
      have := (mem_uniqAux (b :: seen) m b).mp hc
      exact this.2 (List.mem_cons_self b seen)

theorem mem_uniqList [DecidableEq α] (l : List α) (a : α) :
    a ∈ uniqList l ↔ a ∈ l := by
  rw [uniqList, mem_uniqAux]
  simp

theorem nodup_uniqList [DecidableEq α] (l : List α) : (uniqList l).Nodup :=
  nodup_uniqAux [] l

theorem mem_dedupDealsAux (seen : List String) (l : List Deal) (d : Deal) :
    d ∈ dedupDealsAux seen l → d ∈ l ∧ d.id ∉ seen := by
  induction l generalizing seen with
  | nil => simp [dedupDealsAux]
  | cons b m ih =>
    simp only [dedupDealsAux]
    split
    · intro h
      have := ih seen h
      exact ⟨List.mem_cons_of_mem b this.1, this.2⟩
    · rename_i hb
      intro h
      rcases List.mem_cons.mp h with h | h
      · rw [h]
        exact ⟨List.mem_cons_self b m, hb⟩
      · have := ih (b.id :: seen) h
        exact ⟨List.mem_cons_of_mem b this.1, fun hc => this.2 (List.mem_cons_of_mem b.id hc)⟩

theorem nodup_ids_dedupDealsAux (seen : List String) (l : List Deal) :
    ((dedupDealsAux seen l).map (fun d => d.id)).Nodup := by
  induction l generalizing seen with
  | nil => simp [dedupDealsAux]
  | cons b m ih =>
    simp only [dedupDealsAux]
    split
    · exact ih seen
    · simp only [List.map_cons]
      refine List.nodup_cons.mpr ⟨?_, ih (b.id :: seen)⟩
      intro hc
      rcases List.mem_map.mp hc with ⟨d, hd, hid⟩
      have := mem_dedupDealsAux (b.id :: seen) m d hd
      exact this.2 (hid ▸ List.mem_cons_self b.id seen)

theorem nodup_ids_dedupDeals (l : List Deal) :
    ((dedupDeals l).map (fun d => d.id)).Nodup :=
  nodup_ids_dedupDealsAux [] l

theorem filter_length_eq_iff (p : α → Bool) (l : List α) :
    (l.filter p).length = l.length ↔ ∀ a ∈ l, p a = true := by
  induction l with
  | nil => simp
  | cons a m ih =>
    by_cases h : p a = true
    · rw [List.filter_cons_of_pos h]
      simp only [List.length_cons, Nat.add_right_cancel_iff, ih, List.mem_cons]
      constructor
      · intro hall b hb
        rcases hb with hb | hb
        · rw [hb]; exact h
        · exact hall b hb
      · intro hall b hb
        exact hall b (Or.inr hb)
    · rw [List.filter_cons_of_neg h]
      constructor
      · intro hlen
        have hle := List.length_filter_le p m
        rw [List.length_cons] at hlen
        omega
      · intro hall
        exact absurd (hall a (List.mem_cons_self a m)) h

theorem count_eq_ite_of_nodup [DecidableEq α] (l : List α) (hl : l.Nodup) (a : α) :
    l.count a = if a ∈ l then 1 else 0 := by
  by_cases h : a ∈ l
  · rw [if_pos h]
    exact List.count_eq_one_of_mem hl h
  · rw [if_neg h]
    exact List.count_eq_zero_of_not_mem h

theorem count_map_pair (l : List String) (tag : String) (c : String) :
    (l.map (fun x => (x, tag))).count (c, tag) = l.count c := by
  induction l with
  | nil => rfl
  | cons a m ih =>
    simp only [List.map_cons, List.count_cons, ih]
    by_cases h : c = a
    · simp [h]
    · simp [h, Prod.ext_iff]

theorem filter_key_single (f : Deal → String) (l : List Deal)
    (h : (l.map f).Nodup) (d : Deal) (hd : d ∈ l) :
    l.filter (fun x => f x == f d) = [d] := by
  induction l with
  | nil => cases hd
  | cons a m ih =>
    simp only [List.map_cons, List.nodup_cons] at h
    rcases List.mem_cons.mp hd with hc | hc
    · rw [List.filter_cons_of_pos (by rw [hc]; simp)]
      have hnil : m.filter (fun x => f x == f d) = [] := by
        refine List.filter_eq_nil_iff.mpr ?_
        intro x hx hfx
        simp only [beq_iff_eq] at hfx
        rw [hc] at hfx
        exact h.1 (hfx ▸ List.mem_map_of_mem f hx)
      rw [hnil, hc]
    · have hfa : (f a == f d) = false := by
        refine beq_eq_false_iff_ne.mpr ?_
        intro hc'
        exact h.1 (hc' ▸ List.mem_map_of_mem f hc)
      rw [List.filter_cons_of_neg (by simp [hfa])]
      exact ih h.2 hc

/-! ## Structural lemmas about the classifier -/

theorem ignoring_eq_none (pd pr : List String) (s : GenState) (g : RelatedLicenseSet)
    (h : ¬ ∀ l ∈ g.map (fun x => x.license),
      (pr.contains (technicalDomain l) || pd.contains (technicalDomain l)) = true) :
    ignoring pd pr s g = none := by
  have hcond : ¬ (((g.map (fun x => x.license)).map technicalDomain).filter
      (fun d => pr.contains d || pd.contains d)).length = (g.map (fun x => x.license)).length := by
    intro hc
    refine h ?_
    have hlm := List.length_map (g.map (fun x => x.license)) technicalDomain
    have hall := (filter_length_eq_iff (fun d => pr.contains d || pd.contains d)
      ((g.map (fun x => x.license)).map technicalDomain)).mp (by rw [hc, hlm])
    intro l hl
    exact hall (technicalDomain l) (List.mem_map_of_mem technicalDomain hl)
  simp only [ignoring]
  rw [if_neg hcond]

/-! ## Claim C10: 90-day pre-filtering -/

/-- C10: a group in which every license's maintenance start date is more than
90 days before the current time is dropped by `generateDeals` before
classification: the run's entire output — creates, updates, associations and
the ignored-group audit list — is the same as if the group were absent from
the input. -/
theorem claim_C10 (now : Date) (data : GenerateDealsInput)
    (pre post : List RelatedLicenseSet) (g : RelatedLicenseSet)
    (hold : ∀ m ∈ g, olderThan90Days now m.license.maintenanceStartDate = true) :
    generateDeals now { data with allMatches := pre ++ g :: post } =
      generateDeals now { data with allMatches := pre ++ post } := by
  have hg : (g.any fun m => ! olderThan90Days now m.license.maintenanceStartDate) = false := by
    refine List.any_eq_false.mpr ?_
    intro m hm
    simp [hold m hm]
  simp only [generateDeals]
  rw [List.filter_append, List.filter_cons_of_neg (by simp [hg]), ← List.filter_append]

/-- Witness for C10 at a concrete old group. -/
theorem claim_C10_witness :
    olderThan90Days 10000000000000 lic10.maintenanceStartDate = true ∧
    generateDeals 10000000000000 { data10 with allMatches := [] ++ [⟨lic10, []⟩] :: [] } =
      generateDeals 10000000000000 { data10 with allMatches := [] ++ [] } :=
  ⟨by decide, claim_C10 10000000000000 data10 [] [] [⟨lic10, []⟩] (by decide)⟩

/-! ## Claim C2: domain exclusion -/

/-- C2: when every license's technical-contact email domain of a group is in
the partner or free-provider set, the classifier leaves the create and update
action lists untouched — regardless of the existing-deal snapshot, which it
never consults — and records the group's licenses in the ignored list with a
reason starting `bad-domains:`. -/
theorem claim_C2 (pd pr : List String) (deals : List Deal) (s : GenState) (g : RelatedLicenseSet)
    (hne : g ≠ [])
    (hbad : ∀ l ∈ g.map (fun x => x.license),
      (pr.contains (technicalDomain l) || pd.contains (technicalDomain l)) = true) :
    ∃ rest : String,
      generateActionsForMatchedGroup pd pr deals s g =
        some { s with ignoredLicenseSets := s.ignoredLicenseSets ++
          [(g.map (fun x => x.license)).map
            (fun l => { reason := "bad-domains:" ++ rest, license := l })] } := by
  refine ⟨String.intercalate ","
    (uniqList ((g.map (fun x => x.license)).map technicalDomain)), ?_⟩
  have hlen : ¬ g.length = 0 := by
    simpa [List.length_eq_zero] using hne
  have hfil : ((g.map (fun x => x.license)).map technicalDomain).filter
      (fun d => pr.contains d || pd.contains d) =
      (g.map (fun x => x.license)).map technicalDomain := by
    refine List.filter_eq_self.mpr ?_
    intro d hd
    rcases List.mem_map.mp hd with ⟨l, hl, hdl⟩
    exact hdl ▸ hbad l hl
  simp only [generateActionsForMatchedGroup, ignoring, hfil, List.length_map, ignoreLicenses]
  rw [if_neg hlen]
  simp

/-- Witness for C2 at a concrete partner-domain group. -/
theorem claim_C2_witness :
    ((["partner.com"] : List String).contains (technicalDomain licP) ||
      ([] : List String).contains (technicalDomain licP)) = true ∧
    (generateActionsForMatchedGroup [] ["partner.com"] [] emptyGenState [⟨licP, []⟩]).map
      (fun s' => (s'.dealCreateActions, s'.dealUpdateActions)) = some ([], []) := by
  refine ⟨by decide, ?_⟩
  rcases claim_C2 [] ["partner.com"] [] emptyGenState [⟨licP, []⟩] (by decide) (by decide)
    with ⟨rest, h⟩
  rw [h]
  rfl

/-! ## Claim C8: Scenario A -/

/-- C8: a group of exactly one active EVALUATION license with no transactions,
no matching deal, and a non-excluded technical domain yields exactly one
create action, at stage EVAL with amount "0", and no update action and no
ignored entry. -/
theorem claim_C8 (pd pr : List String) (deals : List Deal) (s : GenState) (lic : License)
    (ht : lic.licenseType = LicenseType.EVALUATION)
    (hs : lic.status = LicenseStatus.active)
    (hdom : (pr.contains (technicalDomain lic) || pd.contains (technicalDomain lic)) = false)
    (hnodeal : getDealForLicense deals lic = none) :
    generateActionsForMatchedGroup pd pr deals s [⟨lic, []⟩] =
      some { s with dealCreateActions := s.dealCreateActions ++
        [{ dealstage := DealStage.EVAL, license := lic, transactions := [], amount := "0" }] } := by
  simp only [generateActionsForMatchedGroup, ignoring, List.map_cons, List.map_nil,
    List.filter, hdom, List.length_nil, List.length_cons, sortByKeyAsc, sortBy, insertBy,
    List.filterMap, hnodeal, dedupDeals, dedupDealsAux, List.flatMap, List.all_cons,
    List.all_nil, isFreeLicense, ht, hs, pushCreate]
  simp [hs]

/-- Witness for C8 at a concrete single-eval group. -/
theorem claim_C8_witness :
    lic8.licenseType = LicenseType.EVALUATION ∧
    generateActionsForMatchedGroup [] [] [] emptyGenState [⟨lic8, []⟩] =
      some { emptyGenState with dealCreateActions := emptyGenState.dealCreateActions ++
        [{ dealstage := DealStage.EVAL, license := lic8, transactions := [], amount := "0" }] } :=
  ⟨rfl, claim_C8 [] [] [] emptyGenState lic8 rfl rfl (by decide) (by decide)⟩

/-! ## Claim C6: the all-free data-integrity assertion -/

/-- C6: a non-empty, non-domain-excluded group whose licenses are all free but
which carries at least one transaction makes the classifier fail its fatal
`assert.ok` (embedded as `none`) instead of producing actions or an ignored
entry. -/
theorem claim_C6 (pd pr : List String) (deals : List Deal) (s : GenState) (g : RelatedLicenseSet)
    (hne : g ≠ [])
    (hnotbad : ¬ ∀ l ∈ g.map (fun x => x.license),
      (pr.contains (technicalDomain l) || pd.contains (technicalDomain l)) = true)
    (hfree : ∀ l ∈ g.map (fun x => x.license), isFreeLicense l = true)
    (htx : g.flatMap (fun x => x.transactions) ≠ []) :
    generateActionsForMatchedGroup pd pr deals s g = none := by
  have hlen : ¬ g.length = 0 := by
    simpa [List.length_eq_zero] using hne
  have hig := ignoring_eq_none pd pr s g hnotbad
  have hall : (sortByKeyAsc (fun l => l.maintenanceStartDate)
      (g.map (fun x => x.license))).all isFreeLicense = true := by
    rw [sortByKeyAsc, sortBy_all]
    exact List.all_eq_true.mpr hfree
  have htxlen : (g.flatMap (fun x => x.transactions)).length ≠ 0 := by
    intro hc
    exact htx (List.length_eq_zero.mp hc)
  simp only [generateActionsForMatchedGroup, hig]
  rw [if_neg hlen, if_pos hall, if_pos htxlen]

/-- Witness for C6 at a concrete all-free group carrying a transaction. -/
theorem claim_C6_witness :
    ([⟨lic8, [t1]⟩] : RelatedLicenseSet).flatMap (fun x => x.transactions) ≠ [] ∧
    generateActionsForMatchedGroup [] [] [] emptyGenState [⟨lic8, [t1]⟩] = none :=
  ⟨by decide,
    claim_C6 [] [] [] emptyGenState [⟨lic8, [t1]⟩] (by decide) (by decide) (by decide) (by decide)⟩

/-! ## Lemmas about the update-candidate processing -/

theorem diffField_eq_none [DecidableEq α] (o : Option α) (a : α) (h : optAgrees o a) :
    diffField o a = none := by
  rcases h with h | h
  · rw [h]; rfl
  · rw [h]; simp [diffField]

theorem stripUnchanged_eq_empty (m : OptDealProperties) (old : DealProperties)
    (h : proposedMatchesStored m old) : stripUnchanged m old = emptyOptProperties := by
  obtain ⟨h1, h2, h3, h4, h5, h6, h7, h8, h9, h10, h11, h12, h13⟩ := h
  simp only [stripUnchanged, emptyOptProperties,
    diffField_eq_none _ _ h1, diffField_eq_none _ _ h2, diffField_eq_none _ _ h3,
    diffField_eq_none _ _ h4, diffField_eq_none _ _ h5, diffField_eq_none _ _ h6,
    diffField_eq_none _ _ h7, diffField_eq_none _ _ h8, diffField_eq_none _ _ h9,
    diffField_eq_none _ _ h10, diffField_eq_none _ _ h11, diffField_eq_none _ _ h12,
    diffField_eq_none _ _ h13]

theorem applyUpdateCandidate_some_nonempty (deals : List Deal) (contacts : ContactsByEmail)
    (cand : DealUpdateAction) (res : CandidateResult) (u : DealUpdate)
    (h : applyUpdateCandidate deals contacts cand = some res)
    (hu : res.dealUpdate = some u) : u.properties ≠ emptyOptProperties := by
  simp only [applyUpdateCandidate] at h
  cases hf : deals.find? (fun d => d.id == cand.id) with
  | none =>
    rw [hf] at h
    exact absurd h (by simp)
  | some old =>
    rw [hf] at h
    have hres := Option.some.inj h
    rw [← hres] at hu
    simp only at hu
    by_cases hc : stripUnchanged (mergedPropertiesFor cand) old.properties = emptyOptProperties
    · rw [if_pos hc] at hu
      exact absurd hu (by simp)
    · rw [if_neg hc] at hu
      have := Option.some.inj hu
      rw [← this]
      simpa using hc

theorem processUpdateCandidates_mem (deals : List Deal) (contacts : ContactsByEmail)
    (cands : List DealUpdateAction) (us : List DealUpdate) (ac ar : List Association)
    (h : processUpdateCandidates deals contacts cands = some (us, ac, ar)) :
    ∀ u ∈ us, ∃ cand ∈ cands, ∃ res, applyUpdateCandidate deals contacts cand = some res ∧
      res.dealUpdate = some u := by
  induction cands generalizing us ac ar with
  | nil =>
    simp only [processUpdateCandidates, Option.some.injEq, Prod.mk.injEq] at h
    intro u hu
    rw [← h.1] at hu
    cases hu
  | cons c rest ih =>
    simp only [processUpdateCandidates] at h
    cases ha : applyUpdateCandidate deals contacts c with
    | none =>
      rw [ha] at h
      exact absurd h (by simp)
    | some r =>
      rw [ha] at h
      cases hp : processUpdateCandidates deals contacts rest with
      | none =>
        rw [hp] at h
        exact absurd h (by simp)
      | some triple =>
        rw [hp] at h
        obtain ⟨us', ac', ar'⟩ := triple
        have heq := Option.some.inj h
        have hus : r.dealUpdate.toList ++ us' = us := congrArg Prod.fst heq
        intro u hu
        rw [← hus] at hu
        rcases List.mem_append.mp hu with h1 | h1
        · refine ⟨c, List.mem_cons_self c rest, r, ha, ?_⟩
          cases hd : r.dealUpdate with
          | none => rw [hd] at h1; cases h1
          | some v =>
            rw [hd] at h1
            rcases List.mem_singleton.mp h1 with rfl
            rfl
        · rcases ih us' ac' ar' hp u h1 with ⟨cand, hcand, res, hres, hdu⟩
          exact ⟨cand, List.mem_cons_of_mem c hcand, res, hres, hdu⟩

theorem generateDeals_parts (now : Date) (data : GenerateDealsInput) (out : GenerateDealsOutput)
    (h : generateDeals now data = some out) :
    ∃ res, generateDealActions
        (data.allMatches.filter
          (fun group => group.any (fun m => ! olderThan90Days now m.license.maintenanceStartDate)))
        data.initialDeals data.providerDomains data.partnerDomains = some res ∧
      ∃ us ac ar, processUpdateCandidates data.initialDeals data.contactsByEmail
          res.dealUpdateActions = some (us, ac, ar) ∧
        out.dealsToUpdate = us := by
  simp only [generateDeals] at h
  cases hga : generateDealActions
      (data.allMatches.filter
        (fun group => group.any (fun m => ! olderThan90Days now m.license.maintenanceStartDate)))
      data.initialDeals data.providerDomains data.partnerDomains with
  | none =>
    rw [hga] at h
    exact absurd h (by simp)
  | some res =>
    rw [hga] at h
    dsimp only at h
    refine ⟨res, rfl, ?_⟩
    cases hpc : processUpdateCandidates data.initialDeals data.contactsByEmail
        res.dealUpdateActions with
    | none =>
      rw [hpc] at h
      exact absurd h (by simp)
    | some triple =>
      obtain ⟨us, ac, ar⟩ := triple
      rw [hpc] at h
      dsimp only at h
      refine ⟨us, ac, ar, rfl, ?_⟩
      have := Option.some.inj h
      rw [← this]

/-! ## Claim C3: no-op suppression -/

/-- C3: (1) every update request in the final `dealsToUpdate` output has a
non-empty property bag; and (2) an update candidate whose merged proposed
properties all equal the stored deal's values yields no update request. -/
theorem claim_C3 :
    (∀ (now : Date) (data : GenerateDealsInput) (out : GenerateDealsOutput),
       generateDeals now data = some out →
       ∀ u ∈ out.dealsToUpdate, u.properties ≠ emptyOptProperties) ∧
    (∀ (deals : List Deal) (contacts : ContactsByEmail) (cand : DealUpdateAction)
       (old : Deal) (res : CandidateResult),
       deals.find? (fun d => d.id == cand.id) = some old →
       applyUpdateCandidate deals contacts cand = some res →
       proposedMatchesStored (mergedPropertiesFor cand) old.properties →
       res.dealUpdate = none) := by
  constructor
  · intro now data out h u hu
    rcases generateDeals_parts now data out h with ⟨res, _, us, ac, ar, hpc, hout⟩
    rw [hout] at hu
    rcases processUpdateCandidates_mem data.initialDeals data.contactsByEmail
      res.dealUpdateActions us ac ar hpc u hu with ⟨cand, _, r, hr, hdu⟩
    exact applyUpdateCandidate_some_nonempty data.initialDeals data.contactsByEmail
      cand r u hr hdu
  · intro deals contacts cand old res hfind happly hmatch
    simp only [applyUpdateCandidate, hfind] at happly
    have hres := Option.some.inj happly
    rw [← hres]
    simp only
    rw [if_pos (stripUnchanged_eq_empty _ _ hmatch)]

/-- Witness for C3: a no-op candidate yields no update, and the one update of
a concrete run is non-empty. -/
theorem claim_C3_witness :
    proposedMatchesStored (mergedPropertiesFor cand3) deal3.properties ∧
    (∀ res : CandidateResult, applyUpdateCandidate [deal3] (fun _ => none) cand3 = some res →
      res.dealUpdate = none) ∧
    generateDeals 0 c3data = some c3out ∧
    ({ id := "D3", properties := { emptyOptProperties with closedate := some 0 } } : DealUpdate).properties
      ≠ emptyOptProperties := by
  refine ⟨by decide, ?_, by decide, ?_⟩
  · intro res hres
    exact claim_C3.2 [deal3] (fun _ => none) cand3 deal3 res (by decide) hres (by decide)
  · exact claim_C3.1 0 c3data c3out (by decide)
      { id := "D3", properties := { emptyOptProperties with closedate := some 0 } } (by decide)

/-! ## Claim C9: association diffing -/

/-- C9: for an update candidate carrying a license, the desired contact-id set
is the deduplicated set of the technical, billing and partner billing contact
lookups (missing lookups dropped), and the emitted association mutations are
exactly one create per desired-but-not-stored contact id and one remove per
stored-but-not-desired contact id, all against the old deal's id. -/
theorem claim_C9 (deals : List Deal) (contacts : ContactsByEmail) (cand : DealUpdateAction)
    (lic : License) (old : Deal) (res : CandidateResult)
    (hlic : cand.license = some lic)
    (hfind : deals.find? (fun d => d.id == cand.id) = some old)
    (happly : applyUpdateCandidate deals contacts cand = some res)
    (hnodup : old.contactIds.Nodup) :
    (contactIdsForLicense contacts lic).Nodup ∧
    (∀ c, c ∈ contactIdsForLicense contacts lic ↔
      (contacts lic.contactDetails.technicalContact.email = some c ∨
       (lic.contactDetails.billingContact.map (fun b => b.email)).bind contacts = some c ∨
       (lic.partnerDetails.map (fun p => p.billingContact.email)).bind contacts = some c)) ∧
    (∀ p ∈ res.associationsToCreate, p.2 = old.id) ∧
    (∀ p ∈ res.associationsToRemove, p.2 = old.id) ∧
    (∀ c, res.associationsToCreate.count (c, old.id) =
      if c ∈ contactIdsForLicense contacts lic ∧ c ∉ old.contactIds then 1 else 0) ∧
    (∀ c, res.associationsToRemove.count (c, old.id) =
      if c ∈ old.contactIds ∧ c ∉ contactIdsForLicense contacts lic then 1 else 0) := by
  simp only [applyUpdateCandidate, hfind, hlic] at happly
  have hres := Option.some.inj happly
  have hcreate : res.associationsToCreate =
      ((contactIdsForLicense contacts lic).filter
        (fun i => ! old.contactIds.contains i)).map (fun contactId => (contactId, old.id)) := by
    rw [← hres]
  have hremove : res.associationsToRemove =
      (old.contactIds.filter
        (fun i => ! (contactIdsForLicense contacts lic).contains i)).map
        (fun contactId => (contactId, old.id)) := by
    rw [← hres]
  refine ⟨nodup_uniqList _, ?_, ?_, ?_, ?_, ?_⟩
  · intro c
    simp only [contactIdsForLicense, mem_uniqList, List.mem_filterMap, List.mem_cons,
      List.mem_singleton, List.not_mem_nil, id_eq]
    constructor
    · rintro ⟨a, ha, hac⟩
      rcases ha with ha | ha | ha | ha
      · exact Or.inl (ha ▸ hac)
      · exact Or.inr (Or.inl (ha ▸ hac))
      · exact Or.inr (Or.inr (ha ▸ hac))
      · cases ha
    · rintro (hc | hc | hc)
      · exact ⟨_, Or.inl rfl, hc⟩
      · exact ⟨_, Or.inr (Or.inl rfl), hc⟩
      · exact ⟨_, Or.inr (Or.inr (Or.inl rfl)), hc⟩
  · intro p hp
    rw [hcreate] at hp
    rcases List.mem_map.mp hp with ⟨c, _, hc⟩
    rw [← hc]
  · intro p hp
    rw [hremove] at hp
    rcases List.mem_map.mp hp with ⟨c, _, hc⟩
    rw [← hc]
  · intro c
    rw [hcreate, count_map_pair]
    have hnd : ((contactIdsForLicense contacts lic).filter
        (fun i => ! old.contactIds.contains i)).Nodup :=
      List.Nodup.filter _ (nodup_uniqList _)
    rw [count_eq_ite_of_nodup _ hnd c]
    congr 1
    simp [List.mem_filter]
  · intro c
    rw [hremove, count_map_pair]
    have hnd : (old.contactIds.filter
        (fun i => ! (contactIdsForLicense contacts lic).contains i)).Nodup :=
      List.Nodup.filter _ hnodup
    rw [count_eq_ite_of_nodup _ hnd c]
    congr 1
    simp [List.mem_filter]

/-- Witness for C9 at a concrete candidate, directory and deal. -/
theorem claim_C9_witness :
    cand9.license = some lic9 ∧
    (∀ c, res9.associationsToCreate.count (c, d9.id) =
      if c ∈ contactIdsForLicense contacts9 lic9 ∧ c ∉ d9.contactIds then 1 else 0) := by
  refine ⟨rfl, ?_⟩
  exact (claim_C9 [d9] contacts9 cand9 lic9 d9 res9 rfl (by decide) (by decide) (by decide)).2.2.2.2.1

/-! ## Claim C4: idempotence (code bug) -/

/-- C4 evaluated at the failing input: the first run on `c4data` emits exactly
one create (amount "0.00", stage CLOSED_WON) and no update; the second run, on
the snapshot with that create applied, emits no create but one update whose
single property sets amount to "0" — the recomputed `toString` rendering
disagreeing with the stored `toFixed(2)` rendering — so the classifier is not
idempotent. -/
theorem claim_C4_failing_run :
    (generateDeals 0 c4data).map (fun o =>
      (o.dealsToCreate.map (fun n => (n.properties.amount, n.properties.dealstage)),
       o.dealsToUpdate)) = some ([("0.00", DealStage.CLOSED_WON)], []) ∧
    c4run2.map (fun o =>
      (o.dealsToCreate,
       o.dealsToUpdate.map (fun u => (u.id, u.properties.amount)))) =
      some ([], [("fake-0", some "0")]) := by
  constructor
  · decide
  · decide

/-! ## Claim C1 and C7 counterexamples -/

/-- C1 counterexample: a group carrying only a refund transaction, whose
referenced deal exists and is not CLOSED_LOST, produces no classifier action
at all — the live classifier path never applies the Action Generator's refund
rule (the event-interpretation call is commented out), so no CLOSED_LOST
update is generated. -/
theorem claim_C1_counterexample :
    refundTx.purchaseDetails.saleType = SaleType.Refund ∧
    c1deal ∈ getDealsForTransactions [c1deal] [refundTx] ∧
    c1deal.properties.dealstage ≠ DealStage.CLOSED_LOST ∧
    generateActionsForMatchedGroup [] [] [c1deal] emptyGenState [⟨commLic, [refundTx]⟩] =
      some emptyGenState := by
  refine ⟨rfl, by decide, by decide, by decide⟩

/-- C7 counterexample: a conversion group with a matching deal and no
non-refund transaction produces a classifier update action with NO amount
override — unlike the create path's `toFixed(2)` zero default, so the claimed
uniform "vendor amount of the earliest non-refund transaction, defaulting to
zero" does not describe update actions as stated. -/
theorem claim_C7_counterexample :
    sortedNonRefundTransactions [⟨evalLic, []⟩, ⟨commLic, []⟩] = [] ∧
    generateActionsForMatchedGroup [] [] [c7deal] emptyGenState [⟨evalLic, []⟩, ⟨commLic, []⟩] =
      some { emptyGenState with dealUpdateActions :=
        [{ id := "D7", license := some commLic, transactions := [],
           properties := { addonlicenseid := "L2", closedate := none, amount := none,
                           dealstage := some DealStage.CLOSED_WON } }] } := by
  refine ⟨by decide, by decide⟩

/-! ## Claim C5: stage monotonicity -/

theorem ignoring_some_parts (pd pr : List String) (s : GenState) (g : RelatedLicenseSet)
    (s2 : GenState) (h : ignoring pd pr s g = some s2) :
    s2.dealCreateActions = s.dealCreateActions ∧ s2.dealUpdateActions = s.dealUpdateActions := by
  simp only [ignoring] at h
  split at h
  · have := Option.some.inj h
    rw [← this]
    exact ⟨rfl, rfl⟩
  · exact Option.noConfusion h

theorem group_updates_stage_inv (pd pr : List String) (deals : List Deal) (s : GenState)
    (g : RelatedLicenseSet) (s' : GenState)
    (h : generateActionsForMatchedGroup pd pr deals s g = some s') :
    ∀ u ∈ s'.dealUpdateActions,
      u ∈ s.dealUpdateActions ∨ u.properties.dealstage ≠ some DealStage.EVAL := by
  simp only [generateActionsForMatchedGroup] at h
  by_cases hlen : g.length = 0
  · rw [if_pos hlen] at h
    exact Option.noConfusion h
  rw [if_neg hlen] at h
  cases hig : ignoring pd pr s g with
  | some s2 =>
    rw [hig] at h
    dsimp only at h
    have hparts := ignoring_some_parts pd pr s g s2 hig
    have hs' := Option.some.inj h
    subst hs'
    intro u hu
    rw [hparts.2] at hu
    exact Or.inl hu
  | none =>
    rw [hig] at h
    dsimp only at h
    repeat' split at h
    all_goals try (exact Option.noConfusion h)
    all_goals (
      have hs' := Option.some.inj h
      subst hs'
      intro u hu
      try simp only [pushUpdate, pushCreate, ignoreLicenses] at hu
      first
        | exact Or.inl hu
        | (rcases List.mem_append.mp hu with h1 | h1
           · exact Or.inl h1
           · rcases List.mem_singleton.mp h1 with rfl
             exact Or.inr (by simp)))

theorem runGroups_updates_stage (pd pr : List String) (deals : List Deal)
    (ms : List RelatedLicenseSet) (s s' : GenState)
    (h : runGroups pd pr deals s ms = some s') :
    ∀ u ∈ s'.dealUpdateActions,
      u ∈ s.dealUpdateActions ∨ u.properties.dealstage ≠ some DealStage.EVAL := by
  induction ms generalizing s with
  | nil =>
    simp only [runGroups] at h
    rw [← Option.some.inj h]
    intro u hu
    exact Or.inl hu
  | cons g rest ih =>
    simp only [runGroups] at h
    cases hg : generateActionsForMatchedGroup pd pr deals s g with
    | none =>
      rw [hg] at h
      exact absurd h (by simp)
    | some s1 =>
      rw [hg] at h
      intro u hu
      rcases ih s1 h u hu with h1 | h1
      · exact group_updates_stage_inv pd pr deals s g s1 hg u h1
      · exact Or.inr h1

theorem generateDealActions_updates_stage (ms : List RelatedLicenseSet) (deals : List Deal)
    (pd pr : List String) (res : GenState)
    (h : generateDealActions ms deals pd pr = some res) :
    ∀ u ∈ res.dealUpdateActions, u.properties.dealstage ≠ some DealStage.EVAL := by
  intro u hu
  rcases runGroups_updates_stage pd pr deals ms _ res h u hu with h1 | h1
  · cases h1
  · exact h1

theorem mergedPropertiesFor_dealstage (cand : DealUpdateAction) :
    (mergedPropertiesFor cand).dealstage = cand.properties.dealstage := by
  cases hl : cand.license with
  | none => simp [mergedPropertiesFor, hl, optOfUpdateProperties, emptyOptProperties]
  | some lic => simp [mergedPropertiesFor, hl, mergeGeneratedWithOverrides]

theorem applyUpdateCandidate_dealstage (deals : List Deal) (contacts : ContactsByEmail)
    (cand : DealUpdateAction) (res : CandidateResult) (u : DealUpdate)
    (h : applyUpdateCandidate deals contacts cand = some res)
    (hu : res.dealUpdate = some u) :
    u.properties.dealstage = none ∨ u.properties.dealstage = cand.properties.dealstage := by
  simp only [applyUpdateCandidate] at h
  cases hf : deals.find? (fun d => d.id == cand.id) with
  | none =>
    rw [hf] at h
    exact absurd h (by simp)
  | some old =>
    rw [hf] at h
    have hres := Option.some.inj h
    rw [← hres] at hu
    simp only at hu
    by_cases hc : stripUnchanged (mergedPropertiesFor cand) old.properties = emptyOptProperties
    · rw [if_pos hc] at hu
      exact absurd hu (by simp)
    · rw [if_neg hc] at hu
      rw [← Option.some.inj hu]
      have hms := mergedPropertiesFor_dealstage cand
      cases hcs : cand.properties.dealstage with
      | none =>
        exact Or.inl (by simp [stripUnchanged, diffField, hms, hcs])
      | some v =>
        by_cases hveq : v = old.properties.dealstage
        · exact Or.inl (by simp [stripUnchanged, diffField, hms, hcs, hveq])
        · exact Or.inr (by simp [stripUnchanged, diffField, hms, hcs, hveq])

/-- C5: no update request in the final output ever proposes moving a deal
whose stored stage is CLOSED_WON or CLOSED_LOST back to EVAL (in fact no
emitted update ever proposes the EVAL stage at all). -/
theorem claim_C5 (now : Date) (data : GenerateDealsInput) (out : GenerateDealsOutput)
    (h : generateDeals now data = some out) :
    ∀ u ∈ out.dealsToUpdate, ∀ d ∈ data.initialDeals, d.id = u.id →
      (d.properties.dealstage = DealStage.CLOSED_WON ∨
       d.properties.dealstage = DealStage.CLOSED_LOST) →
      u.properties.dealstage ≠ some DealStage.EVAL := by
  intro u hu d _ _ _
  rcases generateDeals_parts now data out h with ⟨res, hga, us, ac, ar, hpc, hout⟩
  rw [hout] at hu
  rcases processUpdateCandidates_mem data.initialDeals data.contactsByEmail
    res.dealUpdateActions us ac ar hpc u hu with ⟨cand, hcand, r, hr, hdu⟩
  have hcd := generateDealActions_updates_stage _ _ _ _ res hga cand hcand
  rcases applyUpdateCandidate_dealstage data.initialDeals data.contactsByEmail
    cand r u hr hdu with h1 | h1
  · rw [h1]
    simp
  · rw [h1]
    exact hcd

/-- Witness for C5 at a concrete run updating a CLOSED_WON deal. -/
theorem claim_C5_witness :
    generateDeals 0 c5data = some c5out ∧
    c5deal.properties.dealstage = DealStage.CLOSED_WON ∧
    (({ id := "D5", properties := { emptyOptProperties with closedate := some 0 } } :
        DealUpdate).properties.dealstage ≠ some DealStage.EVAL) := by
  refine ⟨by decide, by decide, ?_⟩
  exact claim_C5 0 c5data c5out (by decide)
    { id := "D5", properties := { emptyOptProperties with closedate := some 0 } }
    (by decide) c5deal (by decide) (by decide) (Or.inl (by decide))

/-! ## Claim C1: the refund rule -/

theorem makeUpdateAction_refund (groups : List LicenseContext) (deal : Deal) :
    makeUpdateAction groups deal none
      { emptyOptProperties with dealstage := some DealStage.CLOSED_LOST } =
    some (AGAction.update groups deal
      { emptyOptProperties with dealstage := some DealStage.CLOSED_LOST }) := by
  rfl

theorem filterMap_const_some (f : α → β) (l : List α) :
    l.filterMap (fun a => some (f a)) = l.map f := by
  induction l with
  | nil => rfl
  | cons a m ih => simp [List.filterMap_cons, ih]

theorem actionForRefund_eq_map (deals : List Deal) (e : RefundEvent) :
    actionForRefund deals e =
      ((getDealsForTransactions deals e.refundedTxs).filter
        (fun deal => deal.properties.dealstage ≠ DealStage.CLOSED_LOST)).map
        (fun deal => AGAction.update e.groups deal
          { emptyOptProperties with dealstage := some DealStage.CLOSED_LOST }) := by
  simp only [actionForRefund, makeUpdateAction_refund, filterMap_const_some]

/-- C1 (amended): `ActionGenerator.actionForRefund` emits, for each distinct
deal referenced by a refund event's transactions, no action when the deal is
already CLOSED_LOST and exactly one update setting `dealstage` to CLOSED_LOST
otherwise. (The live classifier path never invokes this rule; see the
counterexample.) -/
theorem claim_C1_refund_rule (deals : List Deal) (e : RefundEvent) (d : Deal)
    (hd : d ∈ getDealsForTransactions deals e.refundedTxs) :
    (d.properties.dealstage = DealStage.CLOSED_LOST →
       (actionForRefund deals e).filter (targetsDealId d.id) = []) ∧
    (d.properties.dealstage ≠ DealStage.CLOSED_LOST →
       (actionForRefund deals e).filter (targetsDealId d.id) =
         [AGAction.update e.groups d
           { emptyOptProperties with dealstage := some DealStage.CLOSED_LOST }]) := by
  have hnodup : ((getDealsForTransactions deals e.refundedTxs).map (fun x => x.id)).Nodup :=
    nodup_ids_dedupDeals _
  have hcomp : (targetsDealId d.id) ∘
      (fun deal => AGAction.update e.groups deal
        { emptyOptProperties with dealstage := some DealStage.CLOSED_LOST }) =
      (fun x : Deal => x.id == d.id) := by
    funext x
    rfl
  constructor
  · intro hcl
    rw [actionForRefund_eq_map, List.filter_map, hcomp]
    have hnil : ((getDealsForTransactions deals e.refundedTxs).filter
        (fun deal => deal.properties.dealstage ≠ DealStage.CLOSED_LOST)).filter
        (fun x => x.id == d.id) = [] := by
      refine List.filter_eq_nil_iff.mpr ?_
      intro x hx hbeq
      have hxmem := List.mem_of_mem_filter hx
      have hxq := (List.mem_filter.mp hx).2
      have hxd : x = d := List.inj_on_of_nodup_map hnodup hxmem hd (by simpa using hbeq)
      rw [hxd] at hxq
      simp [hcl] at hxq
    rw [hnil]
    rfl
  · intro hncl
    rw [actionForRefund_eq_map, List.filter_map, hcomp]
    have hsub : ((getDealsForTransactions deals e.refundedTxs).filter
        (fun deal => deal.properties.dealstage ≠ DealStage.CLOSED_LOST)).filter
        (fun x => x.id == d.id) = [d] := by
      have hnd2 : (((getDealsForTransactions deals e.refundedTxs).filter
          (fun deal => deal.properties.dealstage ≠ DealStage.CLOSED_LOST)).map
          (fun x => x.id)).Nodup :=
        ((List.filter_sublist _).map _).nodup hnodup
      have hdmem : d ∈ (getDealsForTransactions deals e.refundedTxs).filter
          (fun deal => deal.properties.dealstage ≠ DealStage.CLOSED_LOST) :=
        List.mem_filter.mpr ⟨hd, by simpa using hncl⟩
      exact filter_key_single (fun x => x.id) _ hnd2 d hdmem
    rw [hsub]
    rfl

/-- Witness for C1 at a concrete refund event and CLOSED_WON deal. -/
theorem claim_C1_witness :
    c1deal ∈ getDealsForTransactions [c1deal] c1event.refundedTxs ∧
    c1deal.properties.dealstage ≠ DealStage.CLOSED_LOST ∧
    (actionForRefund [c1deal] c1event).filter (targetsDealId c1deal.id) =
      [AGAction.update c1event.groups c1deal
        { emptyOptProperties with dealstage := some DealStage.CLOSED_LOST }] := by
  refine ⟨by decide, by decide, ?_⟩
  exact (claim_C1_refund_rule [c1deal] c1event c1deal (by decide)).2 (by decide)

/-! ## Claim C7: first-non-refund pricing (amended) -/

/-- C7 (amended): in the mixed/paid branch, the price is the vendor amount of
the earliest-sale-date non-refund transaction (none when there is none). A
create action's amount is always `toFixed(2)` of that price defaulting to
zero; an update action carries an explicit amount override only when the
price exists and is nonzero (`price && ...`). When the override is absent the
output stage still proposes an amount for every license-carrying update
candidate: the merge recomputes it from the candidate's transactions with
`toString`, defaulting to "0" — so a zero/absent price reaches the deal as
"0" (not "0.00") whenever that differs from the stored amount, as the
concrete run on `c7data` shows (stored "50.00" becomes "0"). -/
theorem claim_C7_amended (pd pr : List String) (deals : List Deal) (s : GenState)
    (g : RelatedLicenseSet) (s' : GenState)
    (h : generateActionsForMatchedGroup pd pr deals s g = some s')
    (hmixed : (g.map (fun x => x.license)).all isFreeLicense = false) :
    (∀ c ∈ s'.dealCreateActions, c ∉ s.dealCreateActions →
       c.amount = toFixed2 ((groupPrice g).getD 0)) ∧
    (∀ u ∈ s'.dealUpdateActions, u ∉ s.dealUpdateActions →
       u.properties.amount = truthyAmount (groupPrice g)) ∧
    (∀ p', groupPrice g = some p' →
       ∃ tx ∈ (g.flatMap (fun x => x.transactions)).filter
           (fun tx => tx.purchaseDetails.saleType ≠ SaleType.Refund),
         (∀ tx' ∈ (g.flatMap (fun x => x.transactions)).filter
             (fun tx => tx.purchaseDetails.saleType ≠ SaleType.Refund),
           tx.purchaseDetails.saleDate ≤ tx'.purchaseDetails.saleDate) ∧
         p' = tx.purchaseDetails.vendorAmount) ∧
    ((g.flatMap (fun x => x.transactions)).filter
        (fun tx => tx.purchaseDetails.saleType ≠ SaleType.Refund) = [] →
      groupPrice g = none) ∧
    (∀ (cand : DealUpdateAction) (lic : License), cand.license = some lic →
       (mergedPropertiesFor cand).amount =
         some (cand.properties.amount.getD (intToString
           ((((sortByKeyAsc (fun tx => tx.purchaseDetails.saleDate) cand.transactions).find?
               (fun tx => tx.purchaseDetails.saleType ≠ SaleType.Refund)).map
               (fun tx => tx.purchaseDetails.vendorAmount)).getD 0)))) ∧
    (generateDeals 0 c7data =
       some { dealsToCreate := [],
              dealsToUpdate :=
                [{ id := "D7",
                   properties := { emptyOptProperties with amount := some "0" } }],
              associationsToCreate := [], associationsToRemove := [],
              ignoredLicenseSets := [] } ∧
     c7deal.properties.amount = "50.00") := by
  have conj3 : ∀ p', groupPrice g = some p' →
      ∃ tx ∈ (g.flatMap (fun x => x.transactions)).filter
          (fun tx => tx.purchaseDetails.saleType ≠ SaleType.Refund),
        (∀ tx' ∈ (g.flatMap (fun x => x.transactions)).filter
            (fun tx => tx.purchaseDetails.saleType ≠ SaleType.Refund),
          tx.purchaseDetails.saleDate ≤ tx'.purchaseDetails.saleDate) ∧
        p' = tx.purchaseDetails.vendorAmount := by
    intro p' hp
    cases hs : sortedNonRefundTransactions g with
    | nil =>
      rw [groupPrice, hs] at hp
      exact Option.noConfusion hp
    | cons tx rest =>
      rw [groupPrice, hs] at hp
      simp only [List.head?_cons, Option.map_some'] at hp
      have hpv := Option.some.inj hp
      refine ⟨tx, ?_, ?_, hpv.symm⟩
      · have hmem : tx ∈ sortedNonRefundTransactions g := by
          rw [hs]
          exact List.mem_cons_self tx rest
        exact (mem_sortBy _ _ tx).mp hmem
      · intro tx' htx'
        have hs2 : sortByKeyAsc (fun tx => tx.purchaseDetails.saleDate)
            ((g.flatMap (fun x => x.transactions)).filter
              (fun tx => tx.purchaseDetails.saleType ≠ SaleType.Refund)) = tx :: rest := hs
        exact sortByKeyAsc_head_le (fun tx => tx.purchaseDetails.saleDate) _ tx rest hs2 tx' htx'
  have conj4 : (g.flatMap (fun x => x.transactions)).filter
      (fun tx => tx.purchaseDetails.saleType ≠ SaleType.Refund) = [] →
      groupPrice g = none := by
    intro h0
    rw [groupPrice, sortedNonRefundTransactions, h0]
    rfl
  have hmain : (∀ c ∈ s'.dealCreateActions, c ∉ s.dealCreateActions →
      c.amount = toFixed2 ((groupPrice g).getD 0)) ∧
      (∀ u ∈ s'.dealUpdateActions, u ∉ s.dealUpdateActions →
        u.properties.amount = truthyAmount (groupPrice g)) := by
    simp only [generateActionsForMatchedGroup] at h
    by_cases hlen : g.length = 0
    · rw [if_pos hlen] at h
      exact Option.noConfusion h
    rw [if_neg hlen] at h
    cases hig : ignoring pd pr s g with
    | some s2 =>
      rw [hig] at h
      dsimp only at h
      have hparts := ignoring_some_parts pd pr s g s2 hig
      have hs' := Option.some.inj h
      subst hs'
      constructor
      · intro c hc hnc
        rw [hparts.1] at hc
        exact absurd hc hnc
      · intro u hu hnu
        rw [hparts.2] at hu
        exact absurd hu hnu
    | none =>
      rw [hig] at h
      dsimp only at h
      have hallf : (sortByKeyAsc (fun l => l.maintenanceStartDate)
          (g.map (fun x => x.license))).all isFreeLicense = false := by
        rw [sortByKeyAsc, sortBy_all]
        exact hmixed
      rw [if_neg (by simp [hallf])] at h
      repeat' split at h
      all_goals try (exact Option.noConfusion h)
      all_goals (
        have hs' := Option.some.inj h
        subst hs'
        constructor
        · intro c hc hnc
          try simp only [pushUpdate, pushCreate] at hc
          first
            | exact absurd hc hnc
            | (rcases List.mem_append.mp hc with h1 | h1
               · exact absurd h1 hnc
               · rcases List.mem_singleton.mp h1 with rfl
                 rfl)
        · intro u hu hnu
          try simp only [pushUpdate, pushCreate] at hu
          first
            | exact absurd hu hnu
            | (rcases List.mem_append.mp hu with h1 | h1
               · exact absurd h1 hnu
               · rcases List.mem_singleton.mp h1 with rfl
                 rfl))
  have conj5 : ∀ (cand : DealUpdateAction) (lic : License), cand.license = some lic →
      (mergedPropertiesFor cand).amount =
        some (cand.properties.amount.getD (intToString
          ((((sortByKeyAsc (fun tx => tx.purchaseDetails.saleDate) cand.transactions).find?
              (fun tx => tx.purchaseDetails.saleType ≠ SaleType.Refund)).map
              (fun tx => tx.purchaseDetails.vendorAmount)).getD 0))) := by
    intro cand lic hlic
    simp [mergedPropertiesFor, hlic, mergeGeneratedWithOverrides, dealPropertiesForLicense]
  exact ⟨hmain.1, hmain.2, conj3, conj4, conj5, by decide, by decide⟩

/-- Witness for C7 at a concrete paid group with mixed transactions. -/
theorem claim_C7_witness :
    generateActionsForMatchedGroup [] [] [] emptyGenState c7group = some c7state ∧
    (c7group.map (fun x => x.license)).all isFreeLicense = false ∧
    ({ dealstage := DealStage.CLOSED_WON, license := commLic, transactions := [t2, t1],
       amount := "70.00" } : DealCreateAction).amount =
      toFixed2 ((groupPrice c7group).getD 0) := by
  refine ⟨by decide, by decide, ?_⟩
  exact (claim_C7_amended [] [] [] emptyGenState c7group c7state (by decide) (by decide)).1
    _ (by decide) (by decide)

end MA
